import Mathlib

/-!
Verification of the apienvelope response-formatting / error-normalization
library against its specification.

The development shallowly embeds the TypeScript sources:

* `StatusCodeMapper.getStatusCode` / `getSuccessStatusCode`
  (src/utils/statusCodes, given as unnamed part_007);
* `PaginationHelper.validateCursor` / `extractCursorFromRequest`
  (src/core/PaginationHelper);
* `validatePaginationInput` (src/utils/validators, unnamed part_001);
* the `ApiError` constructor and `withContext` (src/errors/ApiError.ts);
* `maskSensitiveFields`, `safeSerializeDetails` and `serializeError`
  (src/utils/errorSerializer, second half of src/decorators/paginate.ts).

JavaScript objects are modelled by an explicit heap (so that reference
sharing and cycles are expressible), JS numbers relevant to pagination by a
rational-plus-specials type, and `instanceof` checks by membership of a
class name in the runtime class chain of an error value.
-/

namespace ApiEnvelope

/-! ### Status code resolution (StatusCodeMapper, unnamed part_007) -/

/-- A runtime JS error value as seen by `StatusCodeMapper.getStatusCode`:
its prototype-chain class names (`e instanceof C` is membership of `C`),
and its `statusCode` property, which is meaningful exactly on `ApiError`
instances. -/
structure JsError where
  classes : List String
  statusCode : Int

/-- `error instanceof C`, with `classes` holding the whole chain of
supertypes of the error's runtime class. -/
def instanceOf (e : JsError) (cls : String) : Bool :=
  e.classes.contains cls

/-- `defaultErrorMappings` from the source, as an ordered association list
(insertion order of the `Map`). -/
def defaultErrorMappings : List (String × Int) :=
  [("ValidationError", 400), ("BadRequestError", 400), ("UnauthorizedError", 401),
   ("ForbiddenError", 403), ("NotFoundError", 404), ("ConflictError", 409),
   ("UnprocessableEntityError", 422), ("RateLimitError", 429),
   ("InternalServerError", 500), ("ServiceUnavailableError", 503)]

/-- `StatusCodeMapper.getStatusCode`: explicit `ApiError` status first, then
the first matching custom mapping, then the first matching default mapping,
else 500. -/
def getStatusCode (customMappings : List (String × Int)) (e : JsError) : Int :=
  if instanceOf e "ApiError" then e.statusCode
  else
    match customMappings.find? (fun q => instanceOf e q.1) with
    | some q => q.2
    | none =>
      match defaultErrorMappings.find? (fun q => instanceOf e q.1) with
      | some q => q.2
      | none => 500

/-- JS `String.prototype.toUpperCase` (on the ASCII method names the mapper
compares against). -/
def jsToUpper (s : String) : String :=
  String.mk (s.data.map Char.toUpper)

/-- JS `String.prototype.toLowerCase` (on the ASCII field names the
serializer compares against). -/
def jsToLower (s : String) : String :=
  String.mk (s.data.map Char.toLower)

/-- `methodStatusCodes` from the source. -/
def methodStatusCodes : List (String × Int) :=
  [("GET", 200), ("POST", 201), ("PUT", 200), ("PATCH", 200),
   ("DELETE", 204), ("HEAD", 200), ("OPTIONS", 200)]

/-- Property lookup `methodStatusCodes[m]` (an absent key is `undefined`). -/
def lookupMethodStatus (m : String) : Option Int :=
  (methodStatusCodes.find? (fun q => q.1 == m)).map Prod.snd

/-- `StatusCodeMapper.getSuccessStatusCode`. -/
def getSuccessStatusCode (method : String) (hasData : Bool) : Int :=
  let upperMethod := jsToUpper method
  if upperMethod == "DELETE" && !hasData then 204
  else (lookupMethodStatus upperMethod).getD 200

/-- Claim C4: status resolution is first-match-wins: an `ApiError`'s explicit
`statusCode` is returned verbatim, overriding custom and default mappings;
otherwise the first matching custom mapping wins; otherwise the first
matching built-in default; otherwise 500. -/
theorem getStatusCode_first_match_wins :
    (∀ customMappings e, instanceOf e "ApiError" = true →
      getStatusCode customMappings e = e.statusCode) ∧
    (∀ customMappings e q, instanceOf e "ApiError" = false →
      customMappings.find? (fun q => instanceOf e q.1) = some q →
      getStatusCode customMappings e = q.2) ∧
    (∀ customMappings e q, instanceOf e "ApiError" = false →
      customMappings.find? (fun q => instanceOf e q.1) = none →
      defaultErrorMappings.find? (fun q => instanceOf e q.1) = some q →
      getStatusCode customMappings e = q.2) ∧
    (∀ customMappings e, instanceOf e "ApiError" = false →
      customMappings.find? (fun q => instanceOf e q.1) = none →
      defaultErrorMappings.find? (fun q => instanceOf e q.1) = none →
      getStatusCode customMappings e = 500) := by
  refine ⟨?_, ?_, ?_, ?_⟩
  · intro custom e h
    simp [getStatusCode, h]
  · intro custom e q h hfind
    simp [getStatusCode, h, hfind]
  · intro custom e q h hc hd
    simp [getStatusCode, h, hc, hd]
  · intro custom e h hc hd
    simp [getStatusCode, h, hc, hd]

/-- Witness for C4: a subclassed `ApiError` keeps its explicit status even
though a default mapping exists for its supertype; a custom mapping matched
through a supertype wins over the defaults; an unknown error maps to 500. -/
theorem getStatusCode_first_match_wins_witness :
    getStatusCode [("NotFoundError", 999)]
      ⟨["NotFoundError", "ApiError", "Error"], 404⟩ = 404 ∧
    getStatusCode [("MyBase", 418)] ⟨["MySub", "MyBase", "Error"], 0⟩ = 418 ∧
    getStatusCode [] ⟨["TypeError", "Error"], 0⟩ = 500 :=
  ⟨getStatusCode_first_match_wins.1 _ _ (by decide),
   getStatusCode_first_match_wins.2.1 _ _ ("MyBase", 418) (by decide) (by decide),
   getStatusCode_first_match_wins.2.2.2 _ _ (by decide) (by decide) (by decide)⟩

/-- Claim C5: success-status resolution depends only on the upper-cased
method name (case-insensitive); the fixed table gives 200 for
GET/PUT/PATCH/HEAD/OPTIONS, 201 for POST, 204 for DELETE regardless of body
presence; any method not in the table yields 200. -/
theorem getSuccessStatusCode_table :
    (∀ m1 m2 hasData, jsToUpper m1 = jsToUpper m2 →
      getSuccessStatusCode m1 hasData = getSuccessStatusCode m2 hasData) ∧
    (∀ b, getSuccessStatusCode "GET" b = 200 ∧ getSuccessStatusCode "PUT" b = 200 ∧
      getSuccessStatusCode "PATCH" b = 200 ∧ getSuccessStatusCode "HEAD" b = 200 ∧
      getSuccessStatusCode "OPTIONS" b = 200 ∧ getSuccessStatusCode "POST" b = 201 ∧
      getSuccessStatusCode "DELETE" b = 204) ∧
    (∀ m b, lookupMethodStatus (jsToUpper m) = none →
      getSuccessStatusCode m b = 200) := by
  refine ⟨?_, ?_, ?_⟩
  · intro m1 m2 b h
    simp only [getSuccessStatusCode, h]
  · intro b
    cases b <;> exact ⟨by decide, by decide, by decide, by decide, by decide,
      by decide, by decide⟩
  · intro m b h
    have hne : (jsToUpper m == "DELETE") = false := by
      cases hdc : (jsToUpper m == "DELETE") with
      | false => rfl
      | true =>
        rw [eq_of_beq hdc] at h
        exact absurd h (by decide)
    simp [getSuccessStatusCode, hne, h]

/-- Witness for C5: lower-case method names resolve like their upper-case
forms, and an unrecognized method resolves to 200. -/
theorem getSuccessStatusCode_table_witness :
    getSuccessStatusCode "delete" true = getSuccessStatusCode "DELETE" true ∧
    getSuccessStatusCode "PROPFIND" true = 200 :=
  ⟨getSuccessStatusCode_table.1 "delete" "DELETE" true (by decide),
   getSuccessStatusCode_table.2.2 "PROPFIND" true rfl⟩

/-! ### JS numbers (for pagination validation)

Pagination validation manipulates JS numbers only through `Number(·)`,
`||`-defaulting, `Math.floor`, `Math.min` and `Math.max`; those operations
are exact, so JS numbers are embedded as rationals extended with `NaN` and
the two infinities (binary-float rounding never enters the claims). -/

inductive JsNum where
  | nan
  | inf
  | ninf
  | fin (q : ℚ)
deriving DecidableEq

/-- JS truthiness of a number: `NaN`, `0` and `-0` are falsy. -/
def jsTruthy : JsNum → Bool
  | .nan => false
  | .fin q => decide (q ≠ 0)
  | _ => true

/-- JS `x || fallback` on numbers. -/
def jsOr (x fallback : JsNum) : JsNum :=
  if jsTruthy x then x else fallback

/-- JS `Math.floor`. -/
def jsFloor : JsNum → JsNum
  | .fin q => .fin ((⌊q⌋ : ℤ) : ℚ)
  | x => x

/-- JS `Math.max` on two arguments (`NaN` propagates). -/
def jsMax : JsNum → JsNum → JsNum
  | .nan, _ => .nan
  | _, .nan => .nan
  | .inf, _ => .inf
  | _, .inf => .inf
  | .ninf, b => b
  | a, .ninf => a
  | .fin a, .fin b => .fin (max a b)

/-- JS `Math.min` on two arguments (`NaN` propagates). -/
def jsMin : JsNum → JsNum → JsNum
  | .nan, _ => .nan
  | _, .nan => .nan
  | .ninf, _ => .ninf
  | _, .ninf => .ninf
  | .inf, b => b
  | a, .inf => a
  | .fin a, .fin b => .fin (min a b)

/-- `Number(v)` applied to an optional number field of a `Partial` record:
an absent (`undefined`) field coerces to `NaN`. -/
def jsNumber (v : Option JsNum) : JsNum :=
  v.getD .nan

/-- `PaginationConfig` (src/types/config): `baseUrl` is irrelevant to the
validators and omitted. -/
structure PaginationConfig where
  defaultLimit : JsNum
  maxLimit : JsNum
  includeLinks : Bool

/-- `Partial<PaginationInput>`: each field may be absent. -/
structure PaginationInputP where
  page : Option JsNum
  limit : Option JsNum
  total : Option JsNum

/-- The validated `PaginationInput`. -/
structure PaginationInputV where
  page : JsNum
  limit : JsNum
  total : JsNum

/-- `validatePaginationInput` from src/utils/validators (unnamed part_001). -/
def validatePaginationInput (input : PaginationInputP) (config : PaginationConfig) :
    PaginationInputV where
  page := jsMax (.fin 1) (jsFloor (jsOr (jsNumber input.page) (.fin 1)))
  limit := jsMin config.maxLimit
    (jsMax (.fin 1) (jsFloor (jsOr (jsNumber input.limit) config.defaultLimit)))
  total := jsMax (.fin 0) (jsFloor (jsOr (jsNumber input.total) (.fin 0)))

/-- Claim C7 (code bug): on the input `{page: Infinity, limit: Infinity,
total: Infinity}` — the exact input of the repository's own test "should
handle Infinity values" — the code returns `page = Infinity`: `Infinity` is
truthy, so `|| 1` keeps it, and `Math.floor`/`Math.max(1, ·)` pass it
through, contradicting the claimed "invalid or non-finite page input
defaults to 1 … always finite". The limit, by contrast, is clamped to
`maxLimit` by the outer `Math.min`. -/
theorem validatePaginationInput_infinity_page :
    (validatePaginationInput ⟨some JsNum.inf, some JsNum.inf, some JsNum.inf⟩
      ⟨JsNum.fin 10, JsNum.fin 100, false⟩).page = JsNum.inf ∧
    (validatePaginationInput ⟨some JsNum.inf, some JsNum.inf, some JsNum.inf⟩
      ⟨JsNum.fin 10, JsNum.fin 100, false⟩).limit = JsNum.fin 100 :=
  ⟨rfl, rfl⟩

/-! ### Cursor extraction (PaginationHelper, src/core/PaginationHelper) -/

/-- A value read from `req.query.<name>`: absent, a string, or some
non-string shape produced by the query parser. -/
inductive QueryVal where
  | absent
  | str (s : String)
  | nonString

/-- The character class of the cursor regex `[a-zA-Z0-9+/=_-]`. -/
def cursorCharAllowed (c : Char) : Bool :=
  c.isAlpha || c.isDigit || c == '+' || c == '/' || c == '=' || c == '_' ||
    c == '-'

/-- `PaginationHelper.validateCursor`: non-strings, the empty string,
over-512-character strings and strings outside the restricted character set
all yield `undefined`. -/
def validateCursor (cursor : QueryVal) : Option String :=
  match cursor with
  | .str s =>
    if s.length = 0 then none
    else if s.length > 512 then none
    else if s.data.all cursorCharAllowed then some s
    else none
  | _ => none

/-- Leading-digit accumulator of JS `parseInt`. -/
def parseIntDigits : List Char → Option Nat → Option Nat
  | [], acc => acc
  | c :: rest, acc =>
    if c.isDigit then
      parseIntDigits rest (some ((acc.getD 0) * 10 + (c.toNat - 48)))
    else acc

/-- JS `parseInt(s, 10)`: skip leading whitespace, optional sign, then the
longest digit prefix; `none` is `NaN`. (Float overflow of the result to
`Infinity`, possible only for numeric strings of more than 308 digits, is
not modelled; no claim depends on it.) -/
def parseIntJs (s : String) : Option Int :=
  let t := s.data.dropWhile fun c => c == ' ' || c == '\t' || c == '\n' || c == '\r'
  match t with
  | '-' :: rest => (parseIntDigits rest none).map fun n => -(n : Int)
  | '+' :: rest => (parseIntDigits rest none).map fun n => (n : Int)
  | _ => (parseIntDigits t none).map fun n => (n : Int)

/-- `PaginationHelper.safeParseInt`. -/
def safeParseInt (value : QueryVal) (fallback maxv : JsNum) : JsNum :=
  match value with
  | .str s =>
    match parseIntJs s with
    | none => fallback
    | some n => jsMin maxv (jsMax (.fin 1) (.fin (n : ℚ)))
  | _ => fallback

/-- The record returned by `PaginationHelper.extractCursorFromRequest`. -/
structure CursorExtract where
  cursor : Option String
  limit : JsNum

/-- `PaginationHelper.extractCursorFromRequest`, reading `req.query.cursor`
and `req.query.limit`. -/
def extractCursorFromRequest (config : PaginationConfig)
    (qcursor qlimit : QueryVal) : CursorExtract where
  cursor := validateCursor qcursor
  limit := jsMin config.maxLimit
    (safeParseInt qlimit config.defaultLimit config.maxLimit)

/-- Claim C8: cursor extraction returns a cursor exactly when the query
value is a non-empty string of at most 512 characters over the restricted
character set, and then returns it unchanged; every other value (absent,
non-string, empty, too long, bad characters) is treated as an absent
cursor. -/
theorem extractCursorFromRequest_cursor_spec (config : PaginationConfig)
    (qcursor qlimit : QueryVal) (s : String) :
    (extractCursorFromRequest config qcursor qlimit).cursor = some s ↔
      (qcursor = QueryVal.str s ∧ s.length ≠ 0 ∧ s.length ≤ 512 ∧
        s.data.all cursorCharAllowed = true) := by
  unfold extractCursorFromRequest validateCursor
  cases qcursor with
  | absent => simp
  | nonString => simp
  | str t =>
    by_cases h0 : t.length = 0
    · simp [h0]
      intro ht
      rw [← ht]
      omega
    · by_cases h1 : t.length > 512
      · simp [h0, h1]
        intro ht
        rw [← ht]
        omega
      · by_cases h2 : t.data.all cursorCharAllowed
        · simp [h0, h1, h2]
          intro ht
          subst ht
          exact ⟨h0, by omega, by simpa using h2⟩
        · simp [h0, h1, h2]
          intro ht _ _
          subst ht
          simpa using h2

/-- Witness for C8: a well-formed cursor is returned unchanged. -/
theorem extractCursorFromRequest_cursor_spec_witness :
    (extractCursorFromRequest ⟨JsNum.fin 10, JsNum.fin 100, false⟩
      (QueryVal.str "abc123+/=_-") (QueryVal.str "5")).cursor =
      some "abc123+/=_-" :=
  (extractCursorFromRequest_cursor_spec ⟨JsNum.fin 10, JsNum.fin 100, false⟩
    _ _ "abc123+/=_-").mpr ⟨rfl, by decide, by decide, by decide⟩

/-! ### The ApiError constructor (src/errors/ApiError.ts) -/

/-- `ApiErrorOptions` (src/types/errors): every field optional. `details`
is a reference into the object heap used by the serializer below; `cause`
is not modelled (no claim touches the error chain). -/
structure ApiErrorOptions where
  code : Option String
  statusCode : Option Int
  details : Option Nat
  fields : Option (List (String × List String))
  context : Option (List (String × String))
  isOperational : Option Bool

/-- JS `v || fallback` on an optional string (`undefined` and `""` are
falsy). -/
def jsOrString (v : Option String) (fallback : String) : String :=
  match v with
  | none => fallback
  | some s => if s = "" then fallback else s

/-- JS `v || fallback` on an optional integer (`undefined` and `0` are
falsy). -/
def jsOrInt (v : Option Int) (fallback : Int) : Int :=
  match v with
  | none => fallback
  | some n => if n = 0 then fallback else n

/-- An `ApiError` instance: the fields assigned by the constructor
(`timestamp` and `cause` omitted — no claim touches them; `stack` is the
trace captured by the runtime). -/
structure ApiErrorData where
  name : String
  message : String
  code : String
  statusCode : Int
  details : Option Nat
  fields : Option (List (String × List String))
  context : Option (List (String × String))
  isOperational : Bool
  stack : Option String

/-- The `ApiError` constructor. `name` is `this.constructor.name` (the
runtime class name), `stack` the runtime-captured trace. -/
def mkApiError (name message : String) (options : ApiErrorOptions)
    (stack : Option String) : ApiErrorData where
  name := name
  message := message
  code := jsOrString options.code "INTERNAL_ERROR"
  statusCode := jsOrInt options.statusCode 500
  details := options.details
  fields := options.fields
  context := options.context
  isOperational := options.isOperational.getD true
  stack := stack

/-- Property lookup in a string-valued JS object. -/
def lookupStr (l : List (String × String)) (k : String) : Option String :=
  (l.find? (fun p => p.1 == k)).map Prod.snd

/-- JS object spread `{...a, ...b}`: `a`'s keys first (values overridden by
`b` where present), then `b`'s new keys. -/
def spreadMerge (a b : List (String × String)) : List (String × String) :=
  (a.map fun p => (p.1, (lookupStr b p.1).getD p.2)) ++
    b.filter fun p => !(a.map Prod.fst).contains p.1

/-- `ApiError.withContext`: a fresh `ApiError` copying code, status,
details, fields and operational flag, merging the context. -/
def ApiErrorData.withContext (e : ApiErrorData)
    (context : List (String × String)) (stack : Option String) : ApiErrorData :=
  mkApiError "ApiError" e.message
    { code := some e.code
      statusCode := some e.statusCode
      details := e.details
      fields := e.fields
      context := some (spreadMerge (e.context.getD []) context)
      isOperational := some e.isOperational } stack

/-! #### The predefined subclasses (src/errors/predefined.ts, given as the
second half of src/unnamed/part_002)

Each subclass calls `super(message, {...options, code: <fixed>, statusCode:
<fixed>, ...})`: the caller-supplied options are spread first and the fixed
`code`/`statusCode` (typed away by `Omit<ApiErrorOptions, 'code' |
'statusCode'>`) are assigned after the spread, so they always win. A JS
default parameter fills in the message when the argument is `undefined`,
modelled by `Option String` with `getD`. -/

/-- `Omit<ApiErrorOptions, 'code' | 'statusCode'>` (`cause` unmodelled as
in `ApiErrorOptions`). `ValidationError`'s options type also omits
`fields`, but since its constructor assigns `fields` after the spread the
behaviour is identical. -/
structure PredefOptions where
  details : Option Nat
  fields : Option (List (String × List String))
  context : Option (List (String × String))
  isOperational : Option Bool

/-- `ValidationError`: 400, `VALIDATION_ERROR`, field errors from the
dedicated parameter (assigned after the options spread). -/
def mkValidationError (message : Option String)
    (fields : Option (List (String × List String))) (options : PredefOptions)
    (stack : Option String) : ApiErrorData :=
  mkApiError "ValidationError" (message.getD "Validation failed")
    { code := some "VALIDATION_ERROR"
      statusCode := some 400
      details := options.details
      fields := fields
      context := options.context
      isOperational := options.isOperational } stack

/-- `NotFoundError`: 404, `NOT_FOUND`. -/
def mkNotFoundError (message : Option String) (options : PredefOptions)
    (stack : Option String) : ApiErrorData :=
  mkApiError "NotFoundError" (message.getD "Resource not found")
    { code := some "NOT_FOUND"
      statusCode := some 404
      details := options.details
      fields := options.fields
      context := options.context
      isOperational := options.isOperational } stack

/-- `UnauthorizedError`: 401, `UNAUTHORIZED`. -/
def mkUnauthorizedError (message : Option String) (options : PredefOptions)
    (stack : Option String) : ApiErrorData :=
  mkApiError "UnauthorizedError" (message.getD "Authentication required")
    { code := some "UNAUTHORIZED"
      statusCode := some 401
      details := options.details
      fields := options.fields
      context := options.context
      isOperational := options.isOperational } stack

/-- `ForbiddenError`: 403, `FORBIDDEN`. -/
def mkForbiddenError (message : Option String) (options : PredefOptions)
    (stack : Option String) : ApiErrorData :=
  mkApiError "ForbiddenError" (message.getD "Access forbidden")
    { code := some "FORBIDDEN"
      statusCode := some 403
      details := options.details
      fields := options.fields
      context := options.context
      isOperational := options.isOperational } stack

/-- `ConflictError`: 409, `CONFLICT`. -/
def mkConflictError (message : Option String) (options : PredefOptions)
    (stack : Option String) : ApiErrorData :=
  mkApiError "ConflictError" (message.getD "Resource conflict")
    { code := some "CONFLICT"
      statusCode := some 409
      details := options.details
      fields := options.fields
      context := options.context
      isOperational := options.isOperational } stack

/-- `InternalServerError`: 500, `INTERNAL_ERROR`, forced
`isOperational: false` (assigned after the spread). -/
def mkInternalServerError (message : Option String) (options : PredefOptions)
    (stack : Option String) : ApiErrorData :=
  mkApiError "InternalServerError" (message.getD "Internal server error")
    { code := some "INTERNAL_ERROR"
      statusCode := some 500
      details := options.details
      fields := options.fields
      context := options.context
      isOperational := some false } stack

/-- `BadRequestError`: 400, `BAD_REQUEST`. -/
def mkBadRequestError (message : Option String) (options : PredefOptions)
    (stack : Option String) : ApiErrorData :=
  mkApiError "BadRequestError" (message.getD "Bad request")
    { code := some "BAD_REQUEST"
      statusCode := some 400
      details := options.details
      fields := options.fields
      context := options.context
      isOperational := options.isOperational } stack

/-- `RateLimitError`: 429, `RATE_LIMIT_EXCEEDED`; `details` is the freshly
allocated `{retryAfter}` object when `retryAfter` is truthy (the
`freshDetails` address stands for that allocation), `undefined` otherwise
(`retryAfter ? {retryAfter} : undefined` — `0` is falsy). The subclass's
own `retryAfter` property is not part of `ApiErrorData`; no claim touches
it. -/
def mkRateLimitError (message : Option String) (retryAfter : Option Int)
    (freshDetails : Nat) (options : PredefOptions) (stack : Option String) :
    ApiErrorData :=
  mkApiError "RateLimitError" (message.getD "Rate limit exceeded")
    { code := some "RATE_LIMIT_EXCEEDED"
      statusCode := some 429
      details :=
        match retryAfter with
        | some r => if r = 0 then none else some freshDetails
        | none => none
      fields := options.fields
      context := options.context
      isOperational := options.isOperational } stack

/-- `ServiceUnavailableError`: 503, `SERVICE_UNAVAILABLE`. -/
def mkServiceUnavailableError (message : Option String)
    (options : PredefOptions) (stack : Option String) : ApiErrorData :=
  mkApiError "ServiceUnavailableError"
    (message.getD "Service temporarily unavailable")
    { code := some "SERVICE_UNAVAILABLE"
      statusCode := some 503
      details := options.details
      fields := options.fields
      context := options.context
      isOperational := options.isOperational } stack

/-- `UnprocessableEntityError`: 422, `UNPROCESSABLE_ENTITY`. -/
def mkUnprocessableEntityError (message : Option String)
    (options : PredefOptions) (stack : Option String) : ApiErrorData :=
  mkApiError "UnprocessableEntityError" (message.getD "Unprocessable entity")
    { code := some "UNPROCESSABLE_ENTITY"
      statusCode := some 422
      details := options.details
      fields := options.fields
      context := options.context
      isOperational := options.isOperational } stack

/-- `createError(ErrorClass, message, context?)`: construct with the
message only, then add context via `withContext` when given (`ctor`
abstracts `new ErrorClass(message)`; `stackW` is the trace captured in the
`withContext` copy). -/
def createError (ctor : String → ApiErrorData) (message : String)
    (context : Option (List (String × String))) (stackW : Option String) :
    ApiErrorData :=
  match context with
  | some ctx => (ctor message).withContext ctx stackW
  | none => ctor message

/-- Claim C9 (counterexample): the constructor performs no validation of
`statusCode`; passing 600 yields an `ApiError` whose status is outside
100–599. -/
theorem mkApiError_statusCode_600 :
    (mkApiError "ApiError" "boom" ⟨none, some 600, none, none, none, none⟩
      none).statusCode = 600 ∧ ¬((600 : Int) ≤ 599) :=
  ⟨rfl, by decide⟩

/-- Range predicate of the claimed invariant. -/
def validHttpStatus (n : Int) : Prop :=
  100 ≤ n ∧ n ≤ 599

/-- Claim C9 (amended): the constructor defaults an absent or zero
`statusCode` to 500 and copies any other value verbatim; hence the
constructed status lies in 100–599 whenever the supplied option is absent,
zero, or itself in 100–599; `withContext` copies preserve in-range
statuses; every one of the ten predefined subclasses pins a fixed in-range
status (400–503) for every constructor input, and `createError` stays in
range whenever its class constructor does. -/
theorem apiError_statusCode_range :
    (∀ (name message : String) (options : ApiErrorOptions)
        (stack : Option String),
      (options.statusCode = none ∨ options.statusCode = some 0 ∨
        (∃ n, options.statusCode = some n ∧ 100 ≤ n ∧ n ≤ 599)) →
      100 ≤ (mkApiError name message options stack).statusCode ∧
        (mkApiError name message options stack).statusCode ≤ 599) ∧
    (∀ (e : ApiErrorData) (context : List (String × String))
        (stack : Option String),
      100 ≤ e.statusCode → e.statusCode ≤ 599 →
      100 ≤ (e.withContext context stack).statusCode ∧
        (e.withContext context stack).statusCode ≤ 599) ∧
    (∀ (message : Option String)
        (fields : Option (List (String × List String)))
        (options : PredefOptions) (stack : Option String),
      validHttpStatus (mkValidationError message fields options stack).statusCode ∧
      validHttpStatus (mkNotFoundError message options stack).statusCode ∧
      validHttpStatus (mkUnauthorizedError message options stack).statusCode ∧
      validHttpStatus (mkForbiddenError message options stack).statusCode ∧
      validHttpStatus (mkConflictError message options stack).statusCode ∧
      validHttpStatus (mkInternalServerError message options stack).statusCode ∧
      validHttpStatus (mkBadRequestError message options stack).statusCode ∧
      validHttpStatus (mkServiceUnavailableError message options stack).statusCode ∧
      validHttpStatus (mkUnprocessableEntityError message options stack).statusCode) ∧
    (∀ (message : Option String) (retryAfter : Option Int)
        (freshDetails : Nat) (options : PredefOptions) (stack : Option String),
      validHttpStatus
        (mkRateLimitError message retryAfter freshDetails options
          stack).statusCode) ∧
    (∀ (ctor : String → ApiErrorData) (message : String)
        (context : Option (List (String × String))) (stackW : Option String),
      (∀ msg, 100 ≤ (ctor msg).statusCode ∧ (ctor msg).statusCode ≤ 599) →
      100 ≤ (createError ctor message context stackW).statusCode ∧
        (createError ctor message context stackW).statusCode ≤ 599) := by
  have hwith : ∀ (e : ApiErrorData) (context : List (String × String))
      (stack : Option String),
      100 ≤ e.statusCode → e.statusCode ≤ 599 →
      100 ≤ (e.withContext context stack).statusCode ∧
        (e.withContext context stack).statusCode ≤ 599 := by
    intro e context stack hlo hhi
    have hne : e.statusCode ≠ 0 := by omega
    have hsc : (e.withContext context stack).statusCode =
        jsOrInt (some e.statusCode) 500 := rfl
    rw [hsc]
    simp only [jsOrInt, if_neg hne]
    omega
  refine ⟨?_, hwith, ?_, ?_, ?_⟩
  · intro name message options stack h
    have hsc : (mkApiError name message options stack).statusCode =
        jsOrInt options.statusCode 500 := rfl
    rcases h with h | h | ⟨n, h, hlo, hhi⟩ <;> rw [hsc, h]
    · exact ⟨by decide, by decide⟩
    · exact ⟨by decide, by decide⟩
    · constructor <;> (simp only [jsOrInt]; split <;> omega)
  · intro message fields options stack
    show validHttpStatus 400 ∧ validHttpStatus 404 ∧ validHttpStatus 401 ∧
      validHttpStatus 403 ∧ validHttpStatus 409 ∧ validHttpStatus 500 ∧
      validHttpStatus 400 ∧ validHttpStatus 503 ∧ validHttpStatus 422
    refine ⟨?_, ?_, ?_, ?_, ?_, ?_, ?_, ?_, ?_⟩ <;>
      exact ⟨by decide, by decide⟩
  · intro message retryAfter freshDetails options stack
    show validHttpStatus 429
    exact ⟨by decide, by decide⟩
  · intro ctor message context stackW hctor
    cases context with
    | none => exact hctor message
    | some ctx =>
      exact hwith (ctor message) ctx stackW (hctor message).1 (hctor message).2

/-- Witness for C9 (amended): a concrete in-range construction and its
`withContext` copy. -/
theorem apiError_statusCode_range_witness :
    (100 ≤ (mkApiError "ApiError" "m"
        ⟨some "TEAPOT", some 418, none, none, none, none⟩ none).statusCode ∧
      (mkApiError "ApiError" "m"
        ⟨some "TEAPOT", some 418, none, none, none, none⟩ none).statusCode ≤ 599) ∧
    (100 ≤ ((mkApiError "ApiError" "m"
        ⟨some "TEAPOT", some 418, none, none, none, none⟩ none).withContext
          [("userId", "7")] none).statusCode ∧
      ((mkApiError "ApiError" "m"
        ⟨some "TEAPOT", some 418, none, none, none, none⟩ none).withContext
          [("userId", "7")] none).statusCode ≤ 599) :=
  ⟨apiError_statusCode_range.1 "ApiError" "m"
      ⟨some "TEAPOT", some 418, none, none, none, none⟩ none
      (Or.inr (Or.inr ⟨418, rfl, by decide, by decide⟩)),
    apiError_statusCode_range.2.1 _ [("userId", "7")] none (by decide) (by decide)⟩

/-! ### The object heap for error details

`details` objects are arbitrary JS object graphs: they can share subobjects
and contain cycles. Values are embedded as primitives plus references into
an explicit heap; each heap cell is a plain object, an array, or an `Error`
instance. -/

inductive Prim where
  | pnum (n : Int)
  | pstr (s : String)
  | pbool (b : Bool)
deriving DecidableEq

inductive JsVal where
  | vnull
  | vundef
  | prim (p : Prim)
  | ref (a : Nat)
deriving DecidableEq

inductive ObjData where
  | node (fields : List (String × JsVal))
  | arrNode (items : List JsVal)
  | errNode (name message : String)

abbrev Heap := List (Nat × ObjData)

def lookupObj (h : Heap) (a : Nat) : Option ObjData :=
  (h.find? (fun p => p.1 == a)).map Prod.snd

/-- `Object.entries`: a plain object's own fields; an array's index-keyed
elements; an `Error` has no own enumerable properties. -/
def entriesOf : ObjData → List (String × JsVal)
  | .node fields => fields
  | .arrNode items => items.enum.map fun p => (toString p.1, p.2)
  | .errNode _ _ => []

def entriesAt (h : Heap) (a : Nat) : List (String × JsVal) :=
  match lookupObj h a with
  | some d => entriesOf d
  | none => []

/-- Serialized output values: pure trees (the sanitizer builds fresh
`Object.create(null)` records and fresh arrays). -/
inductive OutVal where
  | onull
  | oundef
  | oprim (p : Prim)
  | oobj (fields : List (String × OutVal))
  | oarr (items : List OutVal)

def truncatedMarker : List (String × OutVal) :=
  [("_truncated", OutVal.oprim (Prim.pbool true))]

def circularMarker : List (String × OutVal) :=
  [("_circular", OutVal.oprim (Prim.pbool true))]

/-- The prototype-pollution key filter shared by both walkers. -/
def isProtoKey (k : String) : Bool :=
  k == "__proto__" || k == "constructor" || k == "prototype"

/-! ### safeSerializeDetails

The source recursion is bounded by the `depth > 10` guard; it is embedded
with `fuel = 11 - depth`, so fuel 0 is exactly `depth > 10`. The JS
`WeakSet` is mutated in place and shared by all recursive calls, so the
visited set is threaded sequentially through the walk (state passing). The
helpers take the serializer for the next depth as the `child` argument. -/

/-- `value.slice(0, 100).map(item => typeof item === 'object' && item !==
null ? safeSerializeDetails(item, seen, depth + 1) : item)`, with the
threaded visited set (the callee receives the same mutated `WeakSet`). -/
def ssdItems (child : Nat → List Nat → List (String × OutVal) × List Nat) :
    List JsVal → List Nat → List OutVal × List Nat
  | [], seen => ([], seen)
  | item :: rest, seen =>
    let r1 : OutVal × List Nat :=
      match item with
      | .ref a =>
        let r := child a seen
        (OutVal.oobj r.1, r.2)
      | .vnull => (OutVal.onull, seen)
      | .vundef => (OutVal.oundef, seen)
      | .prim p => (OutVal.oprim p, seen)
    let r2 := ssdItems child rest r1.2
    (r1.1 :: r2.1, r2.2)

/-- The body of the `for` loop of `safeSerializeDetails` on one value:
null/undefined and primitives pass through, `Error` instances flatten to
`{name, message}`, arrays truncate to 100 and map their items, any other
object recurses at the next depth. -/
def ssdVal (h : Heap)
    (child : Nat → List Nat → List (String × OutVal) × List Nat) :
    JsVal → List Nat → OutVal × List Nat
  | .vnull, seen => (OutVal.onull, seen)
  | .vundef, seen => (OutVal.oundef, seen)
  | .prim p, seen => (OutVal.oprim p, seen)
  | .ref a, seen =>
    match lookupObj h a with
    | some (.errNode name message) =>
      (OutVal.oobj [("name", OutVal.oprim (Prim.pstr name)),
        ("message", OutVal.oprim (Prim.pstr message))], seen)
    | some (.arrNode items) =>
      let r := ssdItems child (items.take 100) seen
      (OutVal.oarr r.1, r.2)
    | _ =>
      let r := child a seen
      (OutVal.oobj r.1, r.2)

/-- The entry loop of `safeSerializeDetails`: prototype-pollution keys are
skipped, other entries serialized in order with the visited set threaded
left to right. -/
def ssdEntries (h : Heap)
    (child : Nat → List Nat → List (String × OutVal) × List Nat) :
    List (String × JsVal) → List Nat → List (String × OutVal) × List Nat
  | [], seen => ([], seen)
  | (k, v) :: rest, seen =>
    if isProtoKey k then ssdEntries h child rest seen
    else
      let r1 := ssdVal h child v seen
      let r2 := ssdEntries h child rest r1.2
      ((k, r1.1) :: r2.1, r2.2)

/-- `safeSerializeDetails(details, seen, depth)` over the heap, at
`fuel = 11 - depth`: fuel 0 is the `depth > 10` truncation, then the
visited-set check, then the entry walk with this object marked visited. -/
def ssd (h : Heap) : Nat → Nat → List Nat → List (String × OutVal) × List Nat
  | 0, _, seen => (truncatedMarker, seen)
  | fuel + 1, a, seen =>
    if a ∈ seen then (circularMarker, seen)
    else ssdEntries h (fun b s => ssd h fuel b s) (entriesAt h a) (a :: seen)

/-- `safeSerializeDetails` with the source's `depth` parameter. -/
def safeSerializeDetails (h : Heap) (details : Nat) (seen : List Nat)
    (depth : Nat) : List (String × OutVal) × List Nat :=
  ssd h (11 - depth) details seen

/-! ### maskSensitiveFields -/

/-- `sensitiveFields.map(f => f.toLowerCase())`. -/
def sensitiveLower (sensitiveFields : List String) : List String :=
  sensitiveFields.map jsToLower

/-- `lowerSensitiveFields.includes(key.toLowerCase())`. -/
def isSensitiveKey (sensitiveFields : List String) (k : String) : Bool :=
  (sensitiveLower sensitiveFields).contains (jsToLower k)

/-- The entry loop of `maskSensitiveFields`: skip pollution keys, redact
sensitive keys, recurse into non-array objects (`value && typeof value ===
'object' && !Array.isArray(value)`), and copy every other value — arrays
included — verbatim. -/
def maskEntries (sensitiveFields : List String)
    (child : List (String × OutVal) → List (String × OutVal)) :
    List (String × OutVal) → List (String × OutVal)
  | [] => []
  | (k, v) :: rest =>
    if isProtoKey k then maskEntries sensitiveFields child rest
    else if isSensitiveKey sensitiveFields k then
      (k, OutVal.oprim (Prim.pstr "[REDACTED]")) ::
        maskEntries sensitiveFields child rest
    else
      match v with
      | .oobj gs =>
        (k, OutVal.oobj (child gs)) :: maskEntries sensitiveFields child rest
      | _ => (k, v) :: maskEntries sensitiveFields child rest

/-- `maskSensitiveFields` at `fuel = 11 - depth` (fuel 0 is the
`depth > 10` truncation). -/
def maskF (sensitiveFields : List String) :
    Nat → List (String × OutVal) → List (String × OutVal)
  | 0, _ => truncatedMarker
  | fuel + 1, obj => maskEntries sensitiveFields (maskF sensitiveFields fuel) obj

/-- `maskSensitiveFields` with the source's `depth` parameter. -/
def maskSensitiveFields (obj : List (String × OutVal))
    (sensitiveFields : List String) (depth : Nat) : List (String × OutVal) :=
  maskF sensitiveFields (11 - depth) obj

/-! ### serializeError -/

/-- `SerializationOptions` after the `{...defaultOptions, ...options}`
merge. `customSerializers` is absent by default and not modelled: every
claim concerns the `ApiError` / standard-`Error` paths. -/
structure SerializationOptions where
  includeStack : Bool
  maskSensitiveData : Bool
  sensitiveFields : List String

/-- `defaultOptions` from the source. -/
def defaultOptions : SerializationOptions :=
  ⟨false, true, ["password", "token", "secret", "apiKey", "authorization"]⟩

/-- The record built by `ApiError.serialize`. -/
structure SerializedError where
  code : String
  message : String
  statusCode : Int
  details : Option Nat
  fields : Option (List (String × List String))
  context : Option (List (String × String))
  stack : Option String

/-- `ApiError.serialize(includeStack)`. -/
def ApiErrorData.serialize (e : ApiErrorData) (includeStack : Bool) :
    SerializedError where
  code := e.code
  message := e.message
  statusCode := e.statusCode
  details := e.details
  fields := e.fields
  context := e.context
  stack := if includeStack then e.stack else none

/-- An error reaching `serializeError`: an `ApiError` instance or a plain
`Error` (name, message, stack). -/
inductive MError where
  | api (e : ApiErrorData)
  | std (name message : String) (stack : Option String)

/-- The `details` slot of the serializer output: when masking is off the
original heap object is passed through by reference (`raw`), otherwise a
freshly built sanitized tree (`san`). -/
inductive DetailsOut where
  | raw (a : Nat)
  | san (fields : List (String × OutVal))

/-- The `ErrorDetails` record returned by `serializeError`. -/
structure ErrorDetailsOut where
  code : String
  message : String
  details : Option DetailsOut
  fields : Option (List (String × List String))
  stack : Option String

/-- `serializeError(error, options)` (with no custom serializers
registered): sanitize-and-mask the `ApiError` details only under
`maskSensitiveData`, drop empty details, and collapse non-`ApiError`
errors to `INTERNAL_ERROR`. -/
def serializeError (h : Heap) (error : MError)
    (opts : SerializationOptions) : ErrorDetailsOut :=
  match error with
  | .api e =>
    let serialized := e.serialize opts.includeStack
    let details : Option DetailsOut :=
      match serialized.details with
      | some a =>
        if opts.maskSensitiveData then
          some (DetailsOut.san (maskSensitiveFields
            (safeSerializeDetails h a [] 0).1 opts.sensitiveFields 0))
        else some (DetailsOut.raw a)
      | none => none
    let keptDetails : Option DetailsOut :=
      match details with
      | some (DetailsOut.san fs) =>
        if 0 < fs.length then some (DetailsOut.san fs) else none
      | some (DetailsOut.raw a) =>
        if 0 < (entriesAt h a).length then some (DetailsOut.raw a) else none
      | none => none
    { code := serialized.code
      message := serialized.message
      details := keptDetails
      fields := serialized.fields
      stack := if opts.includeStack then serialized.stack else none }
  | .std _ message stack =>
    { code := "INTERNAL_ERROR"
      message := if message = "" then "An unexpected error occurred" else message
      details := none
      fields := none
      stack := if opts.includeStack then stack else none }

/-! ### Support lemmas about the sanitizer's visited set -/

theorem ssdItems_seen_mono
    (child : Nat → List Nat → List (String × OutVal) × List Nat)
    (hchild : ∀ a s, s ⊆ (child a s).2) :
    ∀ items seen, seen ⊆ (ssdItems child items seen).2 := by
  intro items
  induction items with
  | nil => intro seen; simp [ssdItems]
  | cons item rest ih =>
    intro seen
    simp only [ssdItems]
    cases item with
    | ref a => exact (hchild a seen).trans (ih _)
    | vnull => exact ih seen
    | vundef => exact ih seen
    | prim p => exact ih seen

theorem ssdVal_seen_mono (h : Heap)
    (child : Nat → List Nat → List (String × OutVal) × List Nat)
    (hchild : ∀ a s, s ⊆ (child a s).2) :
    ∀ v seen, seen ⊆ (ssdVal h child v seen).2 := by
  intro v seen
  cases v with
  | vnull => simp [ssdVal]
  | vundef => simp [ssdVal]
  | prim p => simp [ssdVal]
  | ref a =>
    simp only [ssdVal]
    cases hl : lookupObj h a with
    | none => exact hchild a seen
    | some d =>
      cases d with
      | node fields => exact hchild a seen
      | arrNode items => exact ssdItems_seen_mono child hchild _ seen
      | errNode name message => simp

theorem ssdEntries_seen_mono (h : Heap)
    (child : Nat → List Nat → List (String × OutVal) × List Nat)
    (hchild : ∀ a s, s ⊆ (child a s).2) :
    ∀ es seen, seen ⊆ (ssdEntries h child es seen).2 := by
  intro es
  induction es with
  | nil => intro seen; simp [ssdEntries]
  | cons kv rest ih =>
    intro seen
    obtain ⟨k, v⟩ := kv
    simp only [ssdEntries]
    by_cases hk : isProtoKey k
    · simp only [hk, if_true]
      exact ih seen
    · simp only [hk, if_false]
      exact (ssdVal_seen_mono h child hchild v seen).trans (ih _)

theorem ssd_seen_mono (h : Heap) :
    ∀ fuel a seen, seen ⊆ (ssd h fuel a seen).2 := by
  intro fuel
  induction fuel with
  | zero => intro a seen; simp [ssd]
  | succ fuel ih =>
    intro a seen
    simp only [ssd]
    by_cases hm : a ∈ seen
    · simp [hm]
    · simp only [hm, if_false]
      exact (List.subset_cons_self a seen).trans
        (ssdEntries_seen_mono h _ (fun b s => ih b s) _ _)

/-- Serializing an object puts (or keeps) its address in the visited set,
as long as the depth guard has not fired. -/
theorem ssd_self_mem (h : Heap) (fuel a : Nat) (seen : List Nat)
    (hf : 0 < fuel) : a ∈ (ssd h fuel a seen).2 := by
  cases fuel with
  | zero => omega
  | succ fuel =>
    simp only [ssd]
    by_cases hm : a ∈ seen
    · simp [hm]
    · simp only [hm, if_false]
      exact ssdEntries_seen_mono h _ (fun b s => ssd_seen_mono h fuel b s) _ _
        (List.mem_cons_self a seen)

/-- A revisited reference is never walked again: it returns the circular
marker and leaves the visited set unchanged. -/
theorem ssd_revisit_circular (h : Heap) (fuel a : Nat) (seen : List Nat)
    (hf : 0 < fuel) (hm : a ∈ seen) :
    ssd h fuel a seen = (circularMarker, seen) := by
  cases fuel with
  | zero => omega
  | succ fuel => simp [ssd, hm]

/-- If a plain-object reference is already in the visited set when the
entry walk reaches it, its output entry is the circular marker. -/
theorem ssdEntries_seen_ref_circular (h : Heap)
    (child : Nat → List Nat → List (String × OutVal) × List Nat)
    (hmono : ∀ a s, s ⊆ (child a s).2)
    (hcirc : ∀ a s, a ∈ s → child a s = (circularMarker, s)) :
    ∀ (es : List (String × JsVal)) (seen : List Nat) (k : String) (b : Nat)
      (bfs : List (String × JsVal)),
      b ∈ seen → (k, JsVal.ref b) ∈ es → isProtoKey k = false →
      lookupObj h b = some (ObjData.node bfs) →
      (k, OutVal.oobj circularMarker) ∈ (ssdEntries h child es seen).1 := by
  intro es
  induction es with
  | nil => intro seen k b bfs _ hmem _ _; simp at hmem
  | cons kv rest ih =>
    intro seen k b bfs hseen hmem hk hb
    obtain ⟨k0, v0⟩ := kv
    rcases List.mem_cons.mp hmem with hhead | htail
    · obtain ⟨hk0, hv0⟩ := Prod.mk.injEq .. ▸ hhead
      subst hk0
      subst hv0
      simp only [ssdEntries, hk, if_false]
      have hval : ssdVal h child (JsVal.ref b) seen = (OutVal.oobj circularMarker, seen) := by
        simp only [ssdVal, hb]
        rw [hcirc b seen hseen]
      rw [hval]
      exact List.mem_cons_self _ _
    · simp only [ssdEntries]
      by_cases hk0 : isProtoKey k0
      · simp only [hk0, if_true]
        exact ih seen k b bfs hseen htail hk hb
      · simp only [hk0, if_false]
        refine List.mem_cons_of_mem _ ?_
        exact ih _ k b bfs (ssdVal_seen_mono h child hmono v0 seen hseen) htail hk hb

/-- Entry walk with two references to the same plain object: by the time the
second one is reached, the first serialization has put the address in the
visited set, so the second output entry is the circular marker. -/
theorem ssdEntries_second_ref_circular (h : Heap)
    (child : Nat → List Nat → List (String × OutVal) × List Nat)
    (hmono : ∀ a s, s ⊆ (child a s).2)
    (hcirc : ∀ a s, a ∈ s → child a s = (circularMarker, s))
    (hself : ∀ a s, a ∈ (child a s).2) :
    ∀ (pre mid post : List (String × JsVal)) (seen : List Nat)
      (k1 k2 : String) (b : Nat) (bfs : List (String × JsVal)),
      lookupObj h b = some (ObjData.node bfs) →
      isProtoKey k1 = false → isProtoKey k2 = false →
      (k2, OutVal.oobj circularMarker) ∈
        (ssdEntries h child
          (pre ++ (k1, JsVal.ref b) :: mid ++ (k2, JsVal.ref b) :: post)
          seen).1 := by
  intro pre
  induction pre with
  | nil =>
    intro mid post seen k1 k2 b bfs hb hk1 hk2
    simp only [List.nil_append, ssdEntries, hk1, if_false]
    refine List.mem_cons_of_mem _ ?_
    have hbmem : b ∈ (ssdVal h child (JsVal.ref b) seen).2 := by
      simp only [ssdVal, hb]
      exact hself b seen
    exact ssdEntries_seen_ref_circular h child hmono hcirc _ _ k2 b bfs hbmem
      (by simp) hk2 hb
  | cons kv pre ih =>
    intro mid post seen k1 k2 b bfs hb hk1 hk2
    obtain ⟨k0, v0⟩ := kv
    simp only [List.cons_append, ssdEntries]
    by_cases hk0 : isProtoKey k0
    · simp only [hk0, if_true]
      exact ih mid post seen k1 k2 b bfs hb hk1 hk2
    · simp only [hk0, if_false]
      exact List.mem_cons_of_mem _ (ih mid post _ k1 k2 b bfs hb hk1 hk2)

/-- Claim C10 (amended): sharing is flagged as circularity exactly for the
values the visited set tracks — the plain objects `safeSerializeDetails`
recurses on. A shared (not necessarily cyclic) plain subobject referenced
twice among the details' entries is serialized once: the visited set
accumulates across the whole traversal and is never retracted, so the
later occurrence is replaced by the circular marker exactly like a real
cycle. (Shared arrays in value position are exempt — see the
counterexample.) Stated for the sanitizer invoked as `serializeError`
invokes it (`seen = ∅`, `depth = 0`). -/
theorem safeSerializeDetails_shared_subobject_circular (h : Heap)
    (a b : Nat) (bfs pre mid post : List (String × JsVal)) (k1 k2 : String)
    (hent : entriesAt h a =
      pre ++ (k1, JsVal.ref b) :: mid ++ (k2, JsVal.ref b) :: post)
    (hb : lookupObj h b = some (ObjData.node bfs))
    (hk1 : isProtoKey k1 = false) (hk2 : isProtoKey k2 = false) :
    (k2, OutVal.oobj circularMarker) ∈ (safeSerializeDetails h a [] 0).1 := by
  have h11 : (11 : Nat) - 0 = 10 + 1 := rfl
  simp only [safeSerializeDetails, h11, ssd, List.not_mem_nil, if_false, hent]
  exact ssdEntries_second_ref_circular h _
    (fun c s => ssd_seen_mono h 10 c s)
    (fun c s hcs => ssd_revisit_circular h 10 c s (by omega) hcs)
    (fun c s => ssd_self_mem h 10 c s (by omega))
    pre mid post _ k1 k2 b bfs hb hk1 hk2

/-- Witness for C10: in `{x: shared, y: shared}` with `shared = {n: 7}` the
second occurrence serializes to the circular marker. -/
theorem safeSerializeDetails_shared_subobject_circular_witness :
    ("y", OutVal.oobj circularMarker) ∈
      (safeSerializeDetails
        [(0, ObjData.node [("x", JsVal.ref 1), ("y", JsVal.ref 1)]),
         (1, ObjData.node [("n", JsVal.prim (Prim.pnum 7))])] 0 [] 0).1 :=
  safeSerializeDetails_shared_subobject_circular
    [(0, ObjData.node [("x", JsVal.ref 1), ("y", JsVal.ref 1)]),
     (1, ObjData.node [("n", JsVal.prim (Prim.pnum 7))])]
    0 1 [("n", JsVal.prim (Prim.pnum 7))] [] [] [] "x" "y" rfl rfl rfl rfl

mutual

/-- Whether a `_circular` key (the marker) occurs anywhere in the value. -/
def hasCircV : OutVal → Bool
  | .oobj fs => hasCircFs fs
  | .oarr xs => hasCircItems xs
  | _ => false

def hasCircFs : List (String × OutVal) → Bool
  | [] => false
  | (k, v) :: rest => k == "_circular" || hasCircV v || hasCircFs rest

def hasCircItems : List OutVal → Bool
  | [] => false
  | v :: rest => hasCircV v || hasCircItems rest

end

/-- Claim C10 (counterexample): a shared ARRAY in value position is not
tracked by the visited set — the `Array.isArray` branch re-walks it with no
`seen` check — so `{a: arr, b: arr}` with `arr = [1]` serializes both
occurrences in full, and no circular marker occurs anywhere in the output:
for shared composite values that are arrays the claim as stated fails. -/
theorem safeSerializeDetails_shared_array_not_marked :
    (safeSerializeDetails
      [(0, ObjData.node [("a", JsVal.ref 1), ("b", JsVal.ref 1)]),
       (1, ObjData.arrNode [JsVal.prim (Prim.pnum 1)])] 0 [] 0).1 =
      [("a", OutVal.oarr [OutVal.oprim (Prim.pnum 1)]),
       ("b", OutVal.oarr [OutVal.oprim (Prim.pnum 1)])] ∧
    hasCircFs [("a", OutVal.oarr [OutVal.oprim (Prim.pnum 1)]),
       ("b", OutVal.oarr [OutVal.oprim (Prim.pnum 1)])] = false :=
  ⟨rfl, rfl⟩

/-! ### Lemmas about the masking pass -/

/-- A non-sensitive, non-pollution key holding a plain object is kept by
the mask, its value recursively masked. -/
theorem maskEntries_obj_mem (sens : List String)
    (child : List (String × OutVal) → List (String × OutVal)) :
    ∀ (obj : List (String × OutVal)) (k : String)
      (gs : List (String × OutVal)),
      (k, OutVal.oobj gs) ∈ obj → isProtoKey k = false →
      isSensitiveKey sens k = false →
      (k, OutVal.oobj (child gs)) ∈ maskEntries sens child obj := by
  intro obj
  induction obj with
  | nil => intro k gs hmem _ _; simp at hmem
  | cons kv rest ih =>
    intro k gs hmem hkp hks
    obtain ⟨k0, v0⟩ := kv
    rcases List.mem_cons.mp hmem with hhead | htail
    · obtain ⟨hk0, hv0⟩ := Prod.mk.injEq .. ▸ hhead
      subst hk0
      subst hv0
      simp only [maskEntries, hkp, hks, if_false]
      exact List.mem_cons_self _ _
    · simp only [maskEntries]
      by_cases hk0 : isProtoKey k0
      · simp only [hk0, if_true]
        exact ih k gs htail hkp hks
      · simp only [hk0, if_false]
        by_cases hs0 : isSensitiveKey sens k0
        · simp only [hs0, if_true]
          exact List.mem_cons_of_mem _ (ih k gs htail hkp hks)
        · simp only [hs0, if_false]
          cases v0 <;>
            exact List.mem_cons_of_mem _ (ih k gs htail hkp hks)

/-- Masking leaves the circular marker object unchanged (as long as
`_circular` itself is not declared sensitive). -/
theorem maskF_circularMarker (sens : List String) (fuel : Nat)
    (hs : isSensitiveKey sens "_circular" = false) :
    maskF sens (fuel + 1) circularMarker = circularMarker := by
  have hp : isProtoKey "_circular" = false := by decide
  simp [maskF, maskEntries, circularMarker, hp, hs]

/-- Claim C2 (amended): with `maskSensitiveData` enabled — the only
configuration in which `serializeError` sanitizes at all — a self-reference
among the details' entries comes back as the circular marker instead of
being walked twice. -/
theorem serializeError_cycle_marker (h : Heap) (e : ApiErrorData)
    (opts : SerializationOptions) (a : Nat) (fs : List (String × JsVal))
    (k : String)
    (hmask : opts.maskSensitiveData = true)
    (hdet : e.details = some a)
    (ha : lookupObj h a = some (ObjData.node fs))
    (hk : (k, JsVal.ref a) ∈ fs)
    (hkp : isProtoKey k = false)
    (hks : isSensitiveKey opts.sensitiveFields k = false)
    (hcs : isSensitiveKey opts.sensitiveFields "_circular" = false) :
    ∃ m, (serializeError h (MError.api e) opts).details =
        some (DetailsOut.san m) ∧
      (k, OutVal.oobj circularMarker) ∈ m := by
  have hent : entriesAt h a = fs := by simp [entriesAt, ha, entriesOf]
  have hsan : (k, OutVal.oobj circularMarker) ∈
      (safeSerializeDetails h a [] 0).1 := by
    have h11 : (11 : Nat) - 0 = 10 + 1 := rfl
    simp only [safeSerializeDetails, h11, ssd, List.not_mem_nil, if_false,
      hent]
    exact ssdEntries_seen_ref_circular h _
      (fun c s => ssd_seen_mono h 10 c s)
      (fun c s hcs2 => ssd_revisit_circular h 10 c s (by omega) hcs2)
      fs [a] k a fs (List.mem_cons_self a []) hk hkp ha
  have hmem : (k, OutVal.oobj circularMarker) ∈
      maskSensitiveFields (safeSerializeDetails h a [] 0).1
        opts.sensitiveFields 0 := by
    have h11 : (11 : Nat) - 0 = 10 + 1 := rfl
    simp only [maskSensitiveFields, h11, maskF]
    have := maskEntries_obj_mem opts.sensitiveFields
      (maskF opts.sensitiveFields 10) (safeSerializeDetails h a [] 0).1
      k circularMarker hsan hkp hks
    rwa [maskF_circularMarker opts.sensitiveFields 9 hcs] at this
  refine ⟨maskSensitiveFields (safeSerializeDetails h a [] 0).1
    opts.sensitiveFields 0, ?_, hmem⟩
  have hlen : 0 < (maskSensitiveFields (safeSerializeDetails h a [] 0).1
      opts.sensitiveFields 0).length :=
    List.length_pos.mpr (List.ne_nil_of_mem hmem)
  simp [serializeError, ApiErrorData.serialize, hdet, hmask, hlen]

/-- Property lookup on a heap object (used to exhibit raw pass-through). -/
def rawKeyAt (h : Heap) (a : Nat) (k : String) : Option JsVal :=
  ((entriesAt h a).find? fun p => p.1 == k).map Prod.snd

/-- Claim C2 (counterexample): with `maskSensitiveData: false` the details
— here the cyclic object `{self: <itself>}` — are passed through by
reference, unsanitized: the output's details slot is the original heap
object 0 whose `self` property still holds the raw self-reference, and no
circular marker is produced anywhere. -/
theorem serializeError_no_mask_keeps_cycle :
    (serializeError [(0, ObjData.node [("self", JsVal.ref 0)])]
      (MError.api (mkApiError "ApiError" "T"
        ⟨some "TEST", some 400, some 0, none, none, none⟩ none))
      ⟨false, false, ["password"]⟩).details = some (DetailsOut.raw 0) ∧
    rawKeyAt [(0, ObjData.node [("self", JsVal.ref 0)])] 0 "self" =
      some (JsVal.ref 0) :=
  ⟨rfl, rfl⟩

/-- Witness for C2 (amended): the concrete cyclic details `{self: <itself>}`
serialize to `{self: {_circular: true}}` under the masking policy. -/
theorem serializeError_cycle_marker_witness :
    ∃ m, (serializeError [(0, ObjData.node [("self", JsVal.ref 0)])]
        (MError.api (mkApiError "ApiError" "T"
          ⟨some "TEST", some 400, some 0, none, none, none⟩ none))
        ⟨false, true, ["password"]⟩).details = some (DetailsOut.san m) ∧
      ("self", OutVal.oobj circularMarker) ∈ m :=
  serializeError_cycle_marker _ _ _ 0 [("self", JsVal.ref 0)] "self"
    rfl rfl rfl (List.mem_cons_self _ _) (by decide) (by decide) (by decide)

/-! ### Absence of prototype-pollution keys in sanitized output -/

mutual

/-- No key named `__proto__` / `constructor` / `prototype` occurs anywhere
in the value, descending through objects and arrays. -/
def noProtoV : OutVal → Bool
  | .oobj fs => noProtoFs fs
  | .oarr xs => noProtoItems xs
  | _ => true

def noProtoFs : List (String × OutVal) → Bool
  | [] => true
  | (k, v) :: rest => !isProtoKey k && noProtoV v && noProtoFs rest

def noProtoItems : List OutVal → Bool
  | [] => true
  | v :: rest => noProtoV v && noProtoItems rest

end

theorem ssdItems_noProto
    (child : Nat → List Nat → List (String × OutVal) × List Nat)
    (hchild : ∀ a s, noProtoFs (child a s).1 = true) :
    ∀ items seen, noProtoItems (ssdItems child items seen).1 = true := by
  intro items
  induction items with
  | nil => intro seen; simp [ssdItems, noProtoItems]
  | cons item rest ih =>
    intro seen
    simp only [ssdItems]
    cases item with
    | ref a => simp [noProtoItems, noProtoV, hchild, ih]
    | vnull => simp [noProtoItems, noProtoV, ih]
    | vundef => simp [noProtoItems, noProtoV, ih]
    | prim p => simp [noProtoItems, noProtoV, ih]

theorem ssdVal_noProto (h : Heap)
    (child : Nat → List Nat → List (String × OutVal) × List Nat)
    (hchild : ∀ a s, noProtoFs (child a s).1 = true) :
    ∀ v seen, noProtoV (ssdVal h child v seen).1 = true := by
  intro v seen
  cases v with
  | vnull => simp [ssdVal, noProtoV]
  | vundef => simp [ssdVal, noProtoV]
  | prim p => simp [ssdVal, noProtoV]
  | ref a =>
    simp only [ssdVal]
    cases hl : lookupObj h a with
    | none => simp [noProtoV, hchild]
    | some d =>
      cases d with
      | node fields => simp [noProtoV, hchild]
      | arrNode items => simp [noProtoV, ssdItems_noProto child hchild]
      | errNode name message =>
        have h1 : isProtoKey "name" = false := by decide
        have h2 : isProtoKey "message" = false := by decide
        simp [noProtoV, noProtoFs, h1, h2]

theorem ssdEntries_noProto (h : Heap)
    (child : Nat → List Nat → List (String × OutVal) × List Nat)
    (hchild : ∀ a s, noProtoFs (child a s).1 = true) :
    ∀ es seen, noProtoFs (ssdEntries h child es seen).1 = true := by
  intro es
  induction es with
  | nil => intro seen; simp [ssdEntries, noProtoFs]
  | cons kv rest ih =>
    intro seen
    obtain ⟨k, v⟩ := kv
    simp only [ssdEntries]
    by_cases hk : isProtoKey k
    · simp only [hk, if_true]
      exact ih seen
    · simp only [hk, if_false]
      simp [noProtoFs, hk, ssdVal_noProto h child hchild, ih]

theorem ssd_noProto (h : Heap) :
    ∀ fuel a seen, noProtoFs (ssd h fuel a seen).1 = true := by
  intro fuel
  induction fuel with
  | zero => intro a seen; simp only [ssd]; decide
  | succ fuel ih =>
    intro a seen
    simp only [ssd]
    by_cases hm : a ∈ seen
    · simp only [hm, if_true]
      decide
    · simp only [hm, if_false]
      exact ssdEntries_noProto h _ (fun b s => ih b s) _ _

theorem maskEntries_noProto (sens : List String)
    (child : List (String × OutVal) → List (String × OutVal))
    (hchild : ∀ gs, noProtoFs gs = true → noProtoFs (child gs) = true) :
    ∀ obj, noProtoFs obj = true →
      noProtoFs (maskEntries sens child obj) = true := by
  intro obj
  induction obj with
  | nil => intro _; simp [maskEntries, noProtoFs]
  | cons kv rest ih =>
    intro hin
    obtain ⟨k, v⟩ := kv
    simp only [noProtoFs, Bool.and_eq_true, Bool.not_eq_true'] at hin
    obtain ⟨⟨hkp, hv⟩, hrest⟩ := hin
    simp only [maskEntries, hkp, if_false]
    by_cases hks : isSensitiveKey sens k
    · simp [noProtoFs, hkp, hks, noProtoV, ih hrest]
    · simp only [hks, if_false]
      cases v with
      | oobj gs =>
        have hgs : noProtoFs gs = true := by simpa [noProtoV] using hv
        simp [noProtoFs, hkp, noProtoV, hchild gs hgs, ih hrest]
      | onull => simp [noProtoFs, hkp, noProtoV, ih hrest]
      | oundef => simp [noProtoFs, hkp, noProtoV, ih hrest]
      | oprim p => simp [noProtoFs, hkp, noProtoV, ih hrest]
      | oarr xs =>
        simp only [noProtoV] at hv
        simp [noProtoFs, hkp, noProtoV, hv, ih hrest]

theorem maskF_noProto (sens : List String) :
    ∀ fuel obj, noProtoFs obj = true →
      noProtoFs (maskF sens fuel obj) = true := by
  intro fuel
  induction fuel with
  | zero => intro obj _; simp only [maskF]; decide
  | succ fuel ih =>
    intro obj hin
    exact maskEntries_noProto sens _ (fun gs hgs => ih gs hgs) obj hin

/-- Claim C6 (amended): whenever `serializeError` actually sanitizes — that
is, whenever `maskSensitiveData` is enabled, which is the only path through
`safeSerializeDetails`/`maskSensitiveFields` — no `__proto__`,
`constructor` or `prototype` key survives at any level of its details
output. -/
theorem serializeError_masked_no_proto_keys (h : Heap) (err : MError)
    (opts : SerializationOptions) (m : List (String × OutVal))
    (hmask : opts.maskSensitiveData = true)
    (hm : (serializeError h err opts).details = some (DetailsOut.san m)) :
    noProtoFs m = true := by
  cases err with
  | std name message stack => simp [serializeError] at hm
  | api e =>
    cases he : e.details with
    | none => simp [serializeError, ApiErrorData.serialize, he] at hm
    | some a =>
      simp only [serializeError, ApiErrorData.serialize, he, hmask,
        if_true] at hm
      by_cases hlen : 0 < (maskSensitiveFields
          (safeSerializeDetails h a [] 0).1 opts.sensitiveFields 0).length
      · simp only [hlen, if_true, Option.some.injEq, DetailsOut.san.injEq] at hm
        subst hm
        exact maskF_noProto opts.sensitiveFields _ _
          (ssd_noProto h _ _ _)
      · simp [hlen] at hm

/-- Claim C6 (counterexample): with `maskSensitiveData: false` nothing is
stripped — the details slot of the output is the original heap object,
whose `__proto__` key is still present (at the top level already). -/
theorem serializeError_no_mask_keeps_proto_key :
    (serializeError
      [(0, ObjData.node [("__proto__", JsVal.prim (Prim.pstr "polluted")),
        ("x", JsVal.prim (Prim.pnum 1))])]
      (MError.api (mkApiError "ApiError" "T"
        ⟨some "TEST", some 400, some 0, none, none, none⟩ none))
      ⟨false, false, ["password"]⟩).details = some (DetailsOut.raw 0) ∧
    rawKeyAt
      [(0, ObjData.node [("__proto__", JsVal.prim (Prim.pstr "polluted")),
        ("x", JsVal.prim (Prim.pnum 1))])] 0 "__proto__" =
      some (JsVal.prim (Prim.pstr "polluted")) :=
  ⟨rfl, rfl⟩

/-- Witness for C6 (amended): the sanitized output of a details object
carrying a `__proto__` key is free of pollution keys. -/
theorem serializeError_masked_no_proto_keys_witness :
    noProtoFs [("x", OutVal.oprim (Prim.pnum 1))] = true :=
  serializeError_masked_no_proto_keys
    [(0, ObjData.node [("__proto__", JsVal.prim (Prim.pstr "polluted")),
      ("x", JsVal.prim (Prim.pnum 1))])]
    (MError.api (mkApiError "ApiError" "T"
      ⟨some "TEST", some 400, some 0, none, none, none⟩ none))
    ⟨false, true, ["password"]⟩
    [("x", OutVal.oprim (Prim.pnum 1))] rfl rfl

/-! ### What the masking pass redacts, and what it leaves alone -/

/-- The redaction marker value. -/
def isRedactedVal : OutVal → Bool
  | .oprim (.pstr s) => s == "[REDACTED]"
  | _ => false

/-- Discriminates the values `maskSensitiveFields` recurses into
(`value && typeof value === 'object' && !Array.isArray(value)`). -/
def isPlainObjOut : OutVal → Bool
  | .oobj _ => true
  | _ => false

mutual

/-- Every sensitive-named key reachable through plain-object nesting —
without crossing an array — holds exactly the redaction marker. Arrays are
not descended into, mirroring the mask's reach. -/
def redactedOkV (sens : List String) : OutVal → Bool
  | .oobj fs => redactedOkFs sens fs
  | _ => true

def redactedOkFs (sens : List String) : List (String × OutVal) → Bool
  | [] => true
  | (k, v) :: rest =>
    (if isSensitiveKey sens k then isRedactedVal v else redactedOkV sens v) &&
      redactedOkFs sens rest

end

theorem maskEntries_redactedOk (sens : List String)
    (child : List (String × OutVal) → List (String × OutVal))
    (hchild : ∀ gs, redactedOkFs sens (child gs) = true) :
    ∀ obj, redactedOkFs sens (maskEntries sens child obj) = true := by
  intro obj
  induction obj with
  | nil => simp [maskEntries, redactedOkFs]
  | cons kv rest ih =>
    obtain ⟨k, v⟩ := kv
    simp only [maskEntries]
    by_cases hkp : isProtoKey k
    · simp only [hkp, if_true]
      exact ih
    · simp only [hkp, if_false]
      by_cases hks : isSensitiveKey sens k
      · simp [redactedOkFs, hks, isRedactedVal, ih]
      · simp only [hks, if_false]
        cases v with
        | oobj gs => simp [redactedOkFs, hks, redactedOkV, hchild gs, ih]
        | onull => simp [redactedOkFs, hks, redactedOkV, ih]
        | oundef => simp [redactedOkFs, hks, redactedOkV, ih]
        | oprim p => simp [redactedOkFs, hks, redactedOkV, ih]
        | oarr xs => simp [redactedOkFs, hks, redactedOkV, ih]

theorem maskF_redactedOk (sens : List String)
    (hs : isSensitiveKey sens "_truncated" = false) :
    ∀ fuel obj, redactedOkFs sens (maskF sens fuel obj) = true := by
  intro fuel
  induction fuel with
  | zero =>
    intro obj
    simp [maskF, truncatedMarker, redactedOkFs, hs, redactedOkV]
  | succ fuel ih =>
    intro obj
    exact maskEntries_redactedOk sens _ (fun gs => ih gs) obj

/-- Claim C1 (amended): with `maskSensitiveData` enabled, every
sensitive-named key reachable through plain-object nesting holds exactly
`"[REDACTED]"` in `serializeError`'s details output — but the mask never
descends into arrays, whose contents (non-matching or matching alike) are
copied verbatim, as are the values of non-matching keys that are not plain
objects. -/
theorem serializeError_masking_scope :
    (∀ (h : Heap) (err : MError) (opts : SerializationOptions)
        (m : List (String × OutVal)),
      opts.maskSensitiveData = true →
      isSensitiveKey opts.sensitiveFields "_truncated" = false →
      (serializeError h err opts).details = some (DetailsOut.san m) →
      redactedOkFs opts.sensitiveFields m = true) ∧
    (∀ (sens : List String)
        (child : List (String × OutVal) → List (String × OutVal))
        (obj : List (String × OutVal)) (k : String) (v : OutVal),
      (k, v) ∈ obj → isProtoKey k = false → isSensitiveKey sens k = false →
      isPlainObjOut v = false →
      (k, v) ∈ maskEntries sens child obj) := by
  constructor
  · intro h err opts m hmask hts hm
    cases err with
    | std name message stack => simp [serializeError] at hm
    | api e =>
      cases he : e.details with
      | none => simp [serializeError, ApiErrorData.serialize, he] at hm
      | some a =>
        simp only [serializeError, ApiErrorData.serialize, he, hmask,
          if_true] at hm
        by_cases hlen : 0 < (maskSensitiveFields
            (safeSerializeDetails h a [] 0).1 opts.sensitiveFields 0).length
        · simp only [hlen, if_true, Option.some.injEq,
            DetailsOut.san.injEq] at hm
          subst hm
          exact maskF_redactedOk opts.sensitiveFields hts _ _
        · simp [hlen] at hm
  · intro sens child obj
    induction obj with
    | nil => intro k v hmem _ _ _; simp at hmem
    | cons kv rest ih =>
      intro k v hmem hkp hks hnv
      obtain ⟨k0, v0⟩ := kv
      rcases List.mem_cons.mp hmem with hhead | htail
      · obtain ⟨hk0, hv0⟩ := Prod.mk.injEq .. ▸ hhead
        subst hk0
        subst hv0
        simp only [maskEntries, hkp, hks, if_false]
        cases v with
        | oobj gs => simp [isPlainObjOut] at hnv
        | onull => exact List.mem_cons_self _ _
        | oundef => exact List.mem_cons_self _ _
        | oprim p => exact List.mem_cons_self _ _
        | oarr xs => exact List.mem_cons_self _ _
      · simp only [maskEntries]
        by_cases hk0 : isProtoKey k0
        · simp only [hk0, if_true]
          exact ih k v htail hkp hks hnv
        · simp only [hk0, if_false]
          by_cases hs0 : isSensitiveKey sens k0
          · simp only [hs0, if_true]
            exact List.mem_cons_of_mem _ (ih k v htail hkp hks hnv)
          · simp only [hs0, if_false]
            cases v0 <;>
              exact List.mem_cons_of_mem _ (ih k v htail hkp hks hnv)

/-- Claim C1 (counterexample): a sensitive key (`password`, declared in the
policy) sitting in an object reached through an array element is NOT
redacted: `maskSensitiveFields` copies array values verbatim
(`!Array.isArray(value)` guards the recursion), so `serializeError` outputs
the secret in clear. -/
theorem serializeError_array_password_not_redacted :
    (serializeError
      [(0, ObjData.node [("items", JsVal.ref 1)]),
       (1, ObjData.arrNode [JsVal.ref 2]),
       (2, ObjData.node [("password", JsVal.prim (Prim.pstr "hunter2"))])]
      (MError.api (mkApiError "ApiError" "T"
        ⟨some "TEST", some 400, some 0, none, none, none⟩ none))
      ⟨false, true, ["password"]⟩).details =
      some (DetailsOut.san [("items", OutVal.oarr
        [OutVal.oobj [("password", OutVal.oprim (Prim.pstr "hunter2"))]])]) ∧
    "hunter2" ≠ "[REDACTED]" :=
  ⟨rfl, by decide⟩

/-- Witness for C1 (amended): object-nested sensitive keys are redacted in
a concrete serialization, and a primitive-valued non-matching entry is kept
verbatim by the mask's entry loop. -/
theorem serializeError_masking_scope_witness :
    redactedOkFs ["password"]
      [("user", OutVal.oobj [("name", OutVal.oprim (Prim.pstr "John")),
        ("password", OutVal.oprim (Prim.pstr "[REDACTED]"))])] = true ∧
    ("id", OutVal.oprim (Prim.pnum 5)) ∈
      maskEntries ["password"] (maskF ["password"] 10)
        [("password", OutVal.oprim (Prim.pstr "secret")),
         ("id", OutVal.oprim (Prim.pnum 5))] :=
  ⟨serializeError_masking_scope.1
      [(0, ObjData.node [("user", JsVal.ref 1)]),
       (1, ObjData.node [("name", JsVal.prim (Prim.pstr "John")),
         ("password", JsVal.prim (Prim.pstr "secret"))])]
      (MError.api (mkApiError "ApiError" "T"
        ⟨some "TEST", some 400, some 0, none, none, none⟩ none))
      ⟨false, true, ["password"]⟩
      [("user", OutVal.oobj [("name", OutVal.oprim (Prim.pstr "John")),
        ("password", OutVal.oprim (Prim.pstr "[REDACTED]"))])]
      rfl (by decide) rfl,
    serializeError_masking_scope.2 ["password"] (maskF ["password"] 10)
      [("password", OutVal.oprim (Prim.pstr "secret")),
       ("id", OutVal.oprim (Prim.pnum 5))]
      "id" (OutVal.oprim (Prim.pnum 5))
      (List.mem_cons_of_mem _ (List.mem_cons_self _ _))
      (by decide) (by decide) rfl⟩

/-! ### Boundedness of the sanitized output -/

mutual

/-- Every array anywhere in the value has at most 100 elements. -/
def arrBoundV : OutVal → Bool
  | .oobj fs => arrBoundFs fs
  | .oarr xs => decide (xs.length ≤ 100) && arrBoundItems xs
  | _ => true

def arrBoundFs : List (String × OutVal) → Bool
  | [] => true
  | (_, v) :: rest => arrBoundV v && arrBoundFs rest

def arrBoundItems : List OutVal → Bool
  | [] => true
  | v :: rest => arrBoundV v && arrBoundItems rest

end

mutual

/-- Nesting height of an output value. -/
def oheight : OutVal → Nat
  | .oobj fs => 1 + heightFs fs
  | .oarr xs => 1 + heightItems xs
  | _ => 0

def heightFs : List (String × OutVal) → Nat
  | [] => 0
  | (_, v) :: rest => max (oheight v) (heightFs rest)

def heightItems : List OutVal → Nat
  | [] => 0
  | v :: rest => max (oheight v) (heightItems rest)

end

theorem ssdItems_length
    (child : Nat → List Nat → List (String × OutVal) × List Nat) :
    ∀ items seen, (ssdItems child items seen).1.length = items.length := by
  intro items
  induction items with
  | nil => intro seen; simp [ssdItems]
  | cons item rest ih =>
    intro seen
    simp only [ssdItems]
    cases item <;> simp [ih]

theorem ssdItems_height
    (child : Nat → List Nat → List (String × OutVal) × List Nat) (B : Nat)
    (hchild : ∀ a s, heightFs (child a s).1 ≤ B) :
    ∀ items seen, heightItems (ssdItems child items seen).1 ≤ B + 1 := by
  intro items
  induction items with
  | nil => intro seen; simp [ssdItems, heightItems]
  | cons item rest ih =>
    intro seen
    simp only [ssdItems]
    cases item with
    | ref a =>
      have h1 := hchild a seen
      have h2 := ih ((child a seen).2)
      simp only [heightItems, oheight]
      omega
    | vnull =>
      have h2 := ih seen
      simp only [heightItems, oheight]
      omega
    | vundef =>
      have h2 := ih seen
      simp only [heightItems, oheight]
      omega
    | prim p =>
      have h2 := ih seen
      simp only [heightItems, oheight]
      omega

theorem ssdVal_height (h : Heap)
    (child : Nat → List Nat → List (String × OutVal) × List Nat) (B : Nat)
    (hchild : ∀ a s, heightFs (child a s).1 ≤ B) :
    ∀ v seen, oheight (ssdVal h child v seen).1 ≤ B + 2 := by
  intro v seen
  cases v with
  | vnull => simp [ssdVal, oheight]
  | vundef => simp [ssdVal, oheight]
  | prim p => simp [ssdVal, oheight]
  | ref a =>
    simp only [ssdVal]
    cases hl : lookupObj h a with
    | none =>
      have h1 := hchild a seen
      simp only [oheight]
      omega
    | some d =>
      cases d with
      | node fields =>
        have h1 := hchild a seen
        simp only [oheight]
        omega
      | arrNode items =>
        have h1 := ssdItems_height child B hchild (items.take 100) seen
        simp only [oheight]
        omega
      | errNode name message =>
        simp only [oheight, heightFs]
        omega

theorem ssdEntries_height (h : Heap)
    (child : Nat → List Nat → List (String × OutVal) × List Nat) (B : Nat)
    (hchild : ∀ a s, heightFs (child a s).1 ≤ B) :
    ∀ es seen, heightFs (ssdEntries h child es seen).1 ≤ B + 2 := by
  intro es
  induction es with
  | nil => intro seen; simp [ssdEntries, heightFs]
  | cons kv rest ih =>
    intro seen
    obtain ⟨k, v⟩ := kv
    simp only [ssdEntries]
    by_cases hk : isProtoKey k
    · simp only [hk, if_true]
      exact ih seen
    · simp only [hk, if_false]
      have h1 := ssdVal_height h child B hchild v seen
      have h2 := ih ((ssdVal h child v seen).2)
      simp only [heightFs]
      omega

theorem ssd_height (h : Heap) :
    ∀ fuel a seen, heightFs (ssd h fuel a seen).1 ≤ 2 * fuel := by
  intro fuel
  induction fuel with
  | zero =>
    intro a seen
    simp only [ssd]
    decide
  | succ fuel ih =>
    intro a seen
    simp only [ssd]
    by_cases hm : a ∈ seen
    · simp only [hm, if_true]
      have : heightFs circularMarker = 0 := by decide
      omega
    · simp only [hm, if_false]
      have := ssdEntries_height h (fun b s => ssd h fuel b s) (2 * fuel)
        (fun b s => ih b s) (entriesAt h a) (a :: seen)
      omega

theorem maskEntries_height (sens : List String)
    (child : List (String × OutVal) → List (String × OutVal))
    (hchild : ∀ gs, heightFs (child gs) ≤ heightFs gs) :
    ∀ obj, heightFs (maskEntries sens child obj) ≤ heightFs obj := by
  intro obj
  induction obj with
  | nil => simp [maskEntries]
  | cons kv rest ih =>
    obtain ⟨k, v⟩ := kv
    simp only [maskEntries]
    by_cases hkp : isProtoKey k
    · simp only [hkp, if_true]
      simp only [heightFs]
      omega
    · simp only [hkp, if_false]
      by_cases hks : isSensitiveKey sens k
      · simp only [hks, if_true, heightFs, oheight]
        omega
      · simp only [hks, if_false]
        cases v with
        | oobj gs =>
          have h1 := hchild gs
          simp only [heightFs, oheight]
          omega
        | onull => simp only [heightFs]; omega
        | oundef => simp only [heightFs]; omega
        | oprim p => simp only [heightFs]; omega
        | oarr xs => simp only [heightFs]; omega

theorem maskF_height (sens : List String) :
    ∀ fuel obj, heightFs (maskF sens fuel obj) ≤ heightFs obj := by
  intro fuel
  induction fuel with
  | zero =>
    intro obj
    simp only [maskF]
    have : heightFs truncatedMarker = 0 := by decide
    omega
  | succ fuel ih =>
    intro obj
    exact maskEntries_height sens _ (fun gs => ih gs) obj

theorem ssdItems_arrBound
    (child : Nat → List Nat → List (String × OutVal) × List Nat)
    (hchild : ∀ a s, arrBoundFs (child a s).1 = true) :
    ∀ items seen, arrBoundItems (ssdItems child items seen).1 = true := by
  intro items
  induction items with
  | nil => intro seen; simp [ssdItems, arrBoundItems]
  | cons item rest ih =>
    intro seen
    simp only [ssdItems]
    cases item with
    | ref a => simp [arrBoundItems, arrBoundV, hchild, ih]
    | vnull => simp [arrBoundItems, arrBoundV, ih]
    | vundef => simp [arrBoundItems, arrBoundV, ih]
    | prim p => simp [arrBoundItems, arrBoundV, ih]

theorem ssdVal_arrBound (h : Heap)
    (child : Nat → List Nat → List (String × OutVal) × List Nat)
    (hchild : ∀ a s, arrBoundFs (child a s).1 = true) :
    ∀ v seen, arrBoundV (ssdVal h child v seen).1 = true := by
  intro v seen
  cases v with
  | vnull => simp [ssdVal, arrBoundV]
  | vundef => simp [ssdVal, arrBoundV]
  | prim p => simp [ssdVal, arrBoundV]
  | ref a =>
    simp only [ssdVal]
    cases hl : lookupObj h a with
    | none => simp [arrBoundV, hchild]
    | some d =>
      cases d with
      | node fields => simp [arrBoundV, hchild]
      | arrNode items =>
        have hlen : ((ssdItems child (items.take 100) seen).1).length ≤ 100 := by
          rw [ssdItems_length]
          simp [List.length_take]
        simp [arrBoundV, hlen, ssdItems_arrBound child hchild]
      | errNode name message => simp [arrBoundV, arrBoundFs]

theorem ssdEntries_arrBound (h : Heap)
    (child : Nat → List Nat → List (String × OutVal) × List Nat)
    (hchild : ∀ a s, arrBoundFs (child a s).1 = true) :
    ∀ es seen, arrBoundFs (ssdEntries h child es seen).1 = true := by
  intro es
  induction es with
  | nil => intro seen; simp [ssdEntries, arrBoundFs]
  | cons kv rest ih =>
    intro seen
    obtain ⟨k, v⟩ := kv
    simp only [ssdEntries]
    by_cases hk : isProtoKey k
    · simp only [hk, if_true]
      exact ih seen
    · simp only [hk, if_false]
      simp [arrBoundFs, ssdVal_arrBound h child hchild, ih]

theorem ssd_arrBound (h : Heap) :
    ∀ fuel a seen, arrBoundFs (ssd h fuel a seen).1 = true := by
  intro fuel
  induction fuel with
  | zero => intro a seen; simp only [ssd]; decide
  | succ fuel ih =>
    intro a seen
    simp only [ssd]
    by_cases hm : a ∈ seen
    · simp only [hm, if_true]
      decide
    · simp only [hm, if_false]
      exact ssdEntries_arrBound h _ (fun b s => ih b s) _ _

theorem maskEntries_arrBound (sens : List String)
    (child : List (String × OutVal) → List (String × OutVal))
    (hchild : ∀ gs, arrBoundFs gs = true → arrBoundFs (child gs) = true) :
    ∀ obj, arrBoundFs obj = true →
      arrBoundFs (maskEntries sens child obj) = true := by
  intro obj
  induction obj with
  | nil => intro _; simp [maskEntries, arrBoundFs]
  | cons kv rest ih =>
    intro hin
    obtain ⟨k, v⟩ := kv
    simp only [arrBoundFs, Bool.and_eq_true] at hin
    obtain ⟨hv, hrest⟩ := hin
    simp only [maskEntries]
    by_cases hkp : isProtoKey k
    · simp only [hkp, if_true]
      exact ih hrest
    · simp only [hkp, if_false]
      by_cases hks : isSensitiveKey sens k
      · simp [arrBoundFs, hks, arrBoundV, ih hrest]
      · simp only [hks, if_false]
        cases v with
        | oobj gs =>
          have hgs : arrBoundFs gs = true := by simpa [arrBoundV] using hv
          simp [arrBoundFs, arrBoundV, hchild gs hgs, ih hrest]
        | onull => simp [arrBoundFs, arrBoundV, ih hrest]
        | oundef => simp [arrBoundFs, arrBoundV, ih hrest]
        | oprim p => simp [arrBoundFs, arrBoundV, ih hrest]
        | oarr xs =>
          simp only [arrBoundV] at hv
          simp [arrBoundFs, arrBoundV, hv, ih hrest]

theorem maskF_arrBound (sens : List String) :
    ∀ fuel obj, arrBoundFs obj = true →
      arrBoundFs (maskF sens fuel obj) = true := by
  intro fuel
  induction fuel with
  | zero => intro obj _; simp only [maskF]; decide
  | succ fuel ih =>
    intro obj hin
    exact maskEntries_arrBound sens _ (fun gs hgs => ih gs hgs) obj hin

/-- Claim C3 (amended): `serializeError` is total (this definition) and
always yields the `ErrorDetails` shape with `code` and `message` set — a
non-`ApiError` collapses to `INTERNAL_ERROR` with a non-empty message — and
whenever `maskSensitiveData` is enabled (the only configuration that
sanitizes), its details output is bounded: every array holds at most 100
elements and the nesting height never exceeds 22, for arbitrary heaps,
cyclic ones included. -/
theorem serializeError_bounded_output :
    (∀ (h : Heap) (err : MError) (opts : SerializationOptions)
        (m : List (String × OutVal)),
      opts.maskSensitiveData = true →
      (serializeError h err opts).details = some (DetailsOut.san m) →
      arrBoundFs m = true ∧ heightFs m ≤ 22) ∧
    (∀ (h : Heap) (name message : String) (stack : Option String)
        (opts : SerializationOptions),
      (serializeError h (MError.std name message stack) opts).code =
        "INTERNAL_ERROR" ∧
      (serializeError h (MError.std name message stack) opts).message ≠ "") := by
  constructor
  · intro h err opts m hmask hm
    cases err with
    | std name message stack => simp [serializeError] at hm
    | api e =>
      cases he : e.details with
      | none => simp [serializeError, ApiErrorData.serialize, he] at hm
      | some a =>
        simp only [serializeError, ApiErrorData.serialize, he, hmask,
          if_true] at hm
        by_cases hlen : 0 < (maskSensitiveFields
            (safeSerializeDetails h a [] 0).1 opts.sensitiveFields 0).length
        · simp only [hlen, if_true, Option.some.injEq,
            DetailsOut.san.injEq] at hm
          subst hm
          constructor
          · exact maskF_arrBound opts.sensitiveFields _ _
              (ssd_arrBound h _ _ _)
          · have h1 := maskF_height opts.sensitiveFields 11
              (safeSerializeDetails h a [] 0).1
            have h2 : heightFs (safeSerializeDetails h a [] 0).1 ≤ 22 := by
              have := ssd_height h 11 a []
              simpa [safeSerializeDetails] using this
            simp only [maskSensitiveFields, Nat.sub_zero]
            omega
        · simp [hlen] at hm
  · intro h name message stack opts
    constructor
    · rfl
    · by_cases hmsg : message = ""
      · simp [serializeError, hmsg]
      · simp [serializeError, hmsg]

/-- Array length of a heap array object (to exhibit unbounded raw
pass-through). -/
def arrLenAt (h : Heap) (a : Nat) : Nat :=
  match lookupObj h a with
  | some (ObjData.arrNode xs) => xs.length
  | _ => 0

/-- Claim C3 (counterexample): with `maskSensitiveData: false` nothing is
sanitized or truncated — the details slot is the original heap object whose
array property still has 101 elements, beyond the claimed truncation bound,
so the output is not the bounded shape the claim promises for every
policy. -/
theorem serializeError_no_mask_untruncated :
    (serializeError
      [(0, ObjData.node [("arr", JsVal.ref 1)]),
       (1, ObjData.arrNode (List.replicate 101 (JsVal.prim (Prim.pnum 0))))]
      (MError.api (mkApiError "ApiError" "T"
        ⟨some "TEST", some 400, some 0, none, none, none⟩ none))
      ⟨false, false, ["password"]⟩).details = some (DetailsOut.raw 0) ∧
    100 < arrLenAt
      [(0, ObjData.node [("arr", JsVal.ref 1)]),
       (1, ObjData.arrNode (List.replicate 101 (JsVal.prim (Prim.pnum 0))))]
      1 :=
  ⟨rfl, by decide⟩

/-- Witness for C3 (amended): a concrete masked serialization is bounded,
and a concrete plain `Error` collapses to `INTERNAL_ERROR`. -/
theorem serializeError_bounded_output_witness :
    (arrBoundFs [("items", OutVal.oarr
        [OutVal.oobj [("password", OutVal.oprim (Prim.pstr "hunter2"))]])] =
        true ∧
      heightFs [("items", OutVal.oarr
        [OutVal.oobj [("password", OutVal.oprim (Prim.pstr "hunter2"))]])] ≤
        22) ∧
    ((serializeError [] (MError.std "Error" "boom" none)
        ⟨false, true, []⟩).code = "INTERNAL_ERROR" ∧
      (serializeError [] (MError.std "Error" "boom" none)
        ⟨false, true, []⟩).message ≠ "") :=
  ⟨serializeError_bounded_output.1
      [(0, ObjData.node [("items", JsVal.ref 1)]),
       (1, ObjData.arrNode [JsVal.ref 2]),
       (2, ObjData.node [("password", JsVal.prim (Prim.pstr "hunter2"))])]
      (MError.api (mkApiError "ApiError" "T"
        ⟨some "TEST", some 400, some 0, none, none, none⟩ none))
      ⟨false, true, ["password"]⟩
      [("items", OutVal.oarr
        [OutVal.oobj [("password", OutVal.oprim (Prim.pstr "hunter2"))]])]
      rfl rfl,
    serializeError_bounded_output.2 [] "Error" "boom" none ⟨false, true, []⟩⟩

end ApiEnvelope
